import Mathlib

/-!
Formal model of the embedded-comstack communication framework.

The definitions below are shallow embeddings of the C++ sources:
the byte-order conversion routines of src/Endianess.h, the fixed-capacity
packet codec of bsw/src/communication/Packet.h, the CAN transport of
bsw/src/communication/CanSocket.h / CanSocket.cpp (and the older
src/CanSocket.cpp where the two generations differ), the socket base class
of bsw/src/communication/Socket.h, the TCP server of
bsw/src/communication/TcpServer.cpp, and the real-time task scheduler of
bsw/src/system/OSControl.h.

Machine integers are modelled as natural-number bit patterns (Nat, reduced
mod 2 ^ width where the C++ arithmetic wraps); signed values are modelled as
Int together with their twos-complement patterns.  Shifts translate to
division and multiplication by powers of two, byte masks to the
corresponding mod / div / mod selections, and a bitwise or of disjoint byte
fields to addition.  The host is little endian (the repository only builds
on Linux where BYTE_ORDER == LITTLE_ENDIAN, the branch under which
to_network and from_network call swap_bytes), so a memcpy of a w-byte value
writes its little-endian byte image.  float and double values are modelled
by their IEEE-754 bit patterns: the packet code only ever reinterprets and
copies their representation, never performs floating-point arithmetic.
-/

/-! ## Two-complement patterns of signed machine integers -/

/-- The w-bit twos-complement pattern of a signed machine-integer value: the
byte image that memcpy and reinterpret_cast observe.  For a value in the
int-w range this is the usual wrap into 0 .. 2 ^ w - 1. -/
def toPattern (w : Nat) (v : Int) : Nat := (v % ((2 : Int) ^ w)).toNat

/-- The signed value represented by a w-bit twos-complement pattern (the
reading a C cast to the signed w-bit type performs on a twos-complement
machine such as every target of this repository). -/
def ofPattern (w : Nat) (p : Nat) : Int :=
  if p < 2 ^ (w - 1) then (p : Int) else (p : Int) - (2 : Int) ^ w

theorem toPattern_lt8 (v : Int) : toPattern 8 v < 2 ^ 8 := by
  unfold toPattern; omega

theorem toPattern_lt16 (v : Int) : toPattern 16 v < 2 ^ 16 := by
  unfold toPattern; omega

theorem toPattern_lt32 (v : Int) : toPattern 32 v < 2 ^ 32 := by
  unfold toPattern; omega

theorem toPattern_lt64 (v : Int) : toPattern 64 v < 2 ^ 64 := by
  unfold toPattern; omega

theorem ofPattern_toPattern8 (v : Int) (hlo : -(2 ^ 7) ≤ v) (hhi : v < 2 ^ 7) :
    ofPattern 8 (toPattern 8 v) = v := by
  unfold ofPattern toPattern; split <;> omega

theorem ofPattern_toPattern16 (v : Int) (hlo : -(2 ^ 15) ≤ v) (hhi : v < 2 ^ 15) :
    ofPattern 16 (toPattern 16 v) = v := by
  unfold ofPattern toPattern; split <;> omega

theorem ofPattern_toPattern32 (v : Int) (hlo : -(2 ^ 31) ≤ v) (hhi : v < 2 ^ 31) :
    ofPattern 32 (toPattern 32 v) = v := by
  unfold ofPattern toPattern; split <;> omega

theorem ofPattern_toPattern64 (v : Int) (hlo : -(2 ^ 63) ≤ v) (hhi : v < 2 ^ 63) :
    ofPattern 64 (toPattern 64 v) = v := by
  unfold ofPattern toPattern; split <;> omega

theorem toPattern_ofPattern8 (p : Nat) (h : p < 2 ^ 8) :
    toPattern 8 (ofPattern 8 p) = p := by
  unfold ofPattern toPattern; split <;> omega

theorem toPattern_ofPattern16 (p : Nat) (h : p < 2 ^ 16) :
    toPattern 16 (ofPattern 16 p) = p := by
  unfold ofPattern toPattern; split <;> omega

theorem toPattern_ofPattern32 (p : Nat) (h : p < 2 ^ 32) :
    toPattern 32 (ofPattern 32 p) = p := by
  unfold ofPattern toPattern; split <;> omega

theorem toPattern_ofPattern64 (p : Nat) (h : p < 2 ^ 64) :
    toPattern 64 (ofPattern 64 p) = p := by
  unfold ofPattern toPattern; split <;> omega

/-! ## Endianess.h: swap_bytes, to_network, from_network

src/Endianess.h defines width-specific template specializations of
swap_bytes built from shifts, byte masks and bitwise or.  On Nat patterns
the translation is: `x >> k` is `x / 2 ^ k`, `x << k` on a w-bit unsigned
operand is `x * 2 ^ k % 2 ^ w` (the C++ shift wraps), a mask
`& (0xFF << (8*j))` keeps byte j (`maskByte`), a low mask `& (2 ^ k - 1)`
is `% 2 ^ k`, and the or of fields that occupy disjoint bytes is
addition. -/

/-- Translation of the byte mask `y & (0xFF << (8*j))`: keeps byte j of y. -/
def maskByte (y j : Nat) : Nat := y / 2 ^ (8 * j) % 2 ^ 8 * 2 ^ (8 * j)

/-- swap_bytes for uint16 (Endianess.h lines 97 to 104):
`temp = (val >> 8) & 0x00FF; temp |= (val << 8) & 0xFFFF`. -/
def swap_bytes_u16 (val : Nat) : Nat :=
  val / 2 ^ 8 % 2 ^ 8 + val * 2 ^ 8 % 2 ^ 16

/-- swap_bytes for uint32 (Endianess.h lines 124 to 133): the four terms
are `(val >> 24) & 0xFF`, `(val << 24) & 0xFF000000`, `(val >> 8) &
0x0000FF00` and `(val << 8) & 0x00FF0000`, or-ed together. -/
def swap_bytes_u32 (val : Nat) : Nat :=
  val / 2 ^ 24 % 2 ^ 8 + maskByte (val * 2 ^ 24 % 2 ^ 32) 3
    + maskByte (val / 2 ^ 8) 1 + maskByte (val * 2 ^ 8 % 2 ^ 32) 2

/-- swap_bytes for uint64 (Endianess.h lines 156 to 169): the eight terms
are `(val >> 56) & 0xFF`, `(val << 56) & 0xFF00000000000000`,
`(val >> 40) & 0xFF00`, `(val << 40) & 0x00FF000000000000`,
`(val >> 24) & 0xFF0000`, `(val << 24) & 0x0000FF0000000000`,
`(val >> 8) & 0xFF000000` and `(val << 8) & 0x000000FF00000000`. -/
def swap_bytes_u64 (val : Nat) : Nat :=
  val / 2 ^ 56 % 2 ^ 8 + maskByte (val * 2 ^ 56 % 2 ^ 64) 7
    + maskByte (val / 2 ^ 40) 1 + maskByte (val * 2 ^ 40 % 2 ^ 64) 6
    + maskByte (val / 2 ^ 24) 2 + maskByte (val * 2 ^ 24 % 2 ^ 64) 5
    + maskByte (val / 2 ^ 8) 3 + maskByte (val * 2 ^ 8 % 2 ^ 64) 4

/-- swap_bytes for sint16 (Endianess.h lines 110 to 117).  The signed
specialization applies the same shift and mask pattern to an int16: on the
twos-complement targets of this repository (gcc: arithmetic right shift,
wrap on narrowing assignment) the body permutes the bytes of the 16-bit
pattern exactly as the unsigned specialization does, and the result is the
int16 reading of the permuted pattern. -/
def swap_bytes_s16 (val : Int) : Int :=
  ofPattern 16 (swap_bytes_u16 (toPattern 16 val))

/-- swap_bytes for sint32 (Endianess.h lines 141 to 148), modelled on the
32-bit twos-complement pattern like the sint16 case. -/
def swap_bytes_s32 (val : Int) : Int :=
  ofPattern 32 (swap_bytes_u32 (toPattern 32 val))

/-- swap_bytes for sint64 (Endianess.h lines 177 to 188), modelled on the
64-bit twos-complement pattern like the sint16 case. -/
def swap_bytes_s64 (val : Int) : Int :=
  ofPattern 64 (swap_bytes_u64 (toPattern 64 val))

/-- to_network for uint16 (Endianess.h lines 199 to 209): on the little
endian host this is swap_bytes. -/
def to_network_u16 (value : Nat) : Nat := swap_bytes_u16 value

/-- from_network for uint16 (Endianess.h lines 218 to 228). -/
def from_network_u16 (value : Nat) : Nat := swap_bytes_u16 value

/-- to_network for uint32. -/
def to_network_u32 (value : Nat) : Nat := swap_bytes_u32 value

/-- from_network for uint32. -/
def from_network_u32 (value : Nat) : Nat := swap_bytes_u32 value

/-- to_network for uint64. -/
def to_network_u64 (value : Nat) : Nat := swap_bytes_u64 value

/-- from_network for uint64. -/
def from_network_u64 (value : Nat) : Nat := swap_bytes_u64 value

/-- to_network for sint16. -/
def to_network_s16 (value : Int) : Int := swap_bytes_s16 value

/-- from_network for sint16. -/
def from_network_s16 (value : Int) : Int := swap_bytes_s16 value

/-- to_network for sint32. -/
def to_network_s32 (value : Int) : Int := swap_bytes_s32 value

/-- from_network for sint32. -/
def from_network_s32 (value : Int) : Int := swap_bytes_s32 value

/-- to_network for sint64. -/
def to_network_s64 (value : Int) : Int := swap_bytes_s64 value

/-- from_network for sint64. -/
def from_network_s64 (value : Int) : Int := swap_bytes_s64 value

/-! ## Byte-swap lemmas -/

theorem swap_bytes_u16_bytes (b0 b1 : Nat) (h0 : b0 < 2 ^ 8) (h1 : b1 < 2 ^ 8) :
    swap_bytes_u16 (b0 + 2 ^ 8 * b1) = b1 + 2 ^ 8 * b0 := by
  unfold swap_bytes_u16; omega

theorem swap_bytes_u16_lt (v : Nat) (h : v < 2 ^ 16) : swap_bytes_u16 v < 2 ^ 16 := by
  unfold swap_bytes_u16; omega

theorem swap_bytes_u16_invol (v : Nat) (h : v < 2 ^ 16) :
    swap_bytes_u16 (swap_bytes_u16 v) = v := by
  have hv : v = v % 2 ^ 8 + 2 ^ 8 * (v / 2 ^ 8 % 2 ^ 8) := by omega
  rw [hv, swap_bytes_u16_bytes, swap_bytes_u16_bytes] <;> omega

theorem swap_bytes_u32_bytes (b0 b1 b2 b3 : Nat)
    (h0 : b0 < 2 ^ 8) (h1 : b1 < 2 ^ 8) (h2 : b2 < 2 ^ 8) (h3 : b3 < 2 ^ 8) :
    swap_bytes_u32 (b0 + 2 ^ 8 * b1 + 2 ^ 16 * b2 + 2 ^ 24 * b3) =
      b3 + 2 ^ 8 * b2 + 2 ^ 16 * b1 + 2 ^ 24 * b0 := by
  unfold swap_bytes_u32 maskByte; omega

theorem swap_bytes_u32_lt (v : Nat) (h : v < 2 ^ 32) : swap_bytes_u32 v < 2 ^ 32 := by
  have hv : v = v % 2 ^ 8 + 2 ^ 8 * (v / 2 ^ 8 % 2 ^ 8) + 2 ^ 16 * (v / 2 ^ 16 % 2 ^ 8)
      + 2 ^ 24 * (v / 2 ^ 24 % 2 ^ 8) := by omega
  rw [hv, swap_bytes_u32_bytes] <;> omega

theorem swap_bytes_u32_invol (v : Nat) (h : v < 2 ^ 32) :
    swap_bytes_u32 (swap_bytes_u32 v) = v := by
  have hv : v = v % 2 ^ 8 + 2 ^ 8 * (v / 2 ^ 8 % 2 ^ 8) + 2 ^ 16 * (v / 2 ^ 16 % 2 ^ 8)
      + 2 ^ 24 * (v / 2 ^ 24 % 2 ^ 8) := by omega
  rw [hv, swap_bytes_u32_bytes, swap_bytes_u32_bytes] <;> omega

theorem swap64_term0 (b0 b1 b2 b3 b4 b5 b6 b7 : Nat)
    (h0 : b0 < 2 ^ 8) (h1 : b1 < 2 ^ 8) (h2 : b2 < 2 ^ 8) (h3 : b3 < 2 ^ 8)
    (h4 : b4 < 2 ^ 8) (h5 : b5 < 2 ^ 8) (h6 : b6 < 2 ^ 8) (h7 : b7 < 2 ^ 8) :
    (b0 + 2 ^ 8 * b1 + 2 ^ 16 * b2 + 2 ^ 24 * b3 + 2 ^ 32 * b4
        + 2 ^ 40 * b5 + 2 ^ 48 * b6 + 2 ^ 56 * b7) / 2 ^ 56 % 2 ^ 8 = b7 := by
  omega

theorem swap64_term1 (b0 b1 b2 b3 b4 b5 b6 b7 : Nat)
    (h0 : b0 < 2 ^ 8) (h1 : b1 < 2 ^ 8) (h2 : b2 < 2 ^ 8) (h3 : b3 < 2 ^ 8)
    (h4 : b4 < 2 ^ 8) (h5 : b5 < 2 ^ 8) (h6 : b6 < 2 ^ 8) (h7 : b7 < 2 ^ 8) :
    (b0 + 2 ^ 8 * b1 + 2 ^ 16 * b2 + 2 ^ 24 * b3 + 2 ^ 32 * b4
        + 2 ^ 40 * b5 + 2 ^ 48 * b6 + 2 ^ 56 * b7) * 2 ^ 56 % 2 ^ 64
      / 2 ^ (8 * 7) % 2 ^ 8 * 2 ^ (8 * 7) = 2 ^ 56 * b0 := by
  omega

theorem swap64_term2 (b0 b1 b2 b3 b4 b5 b6 b7 : Nat)
    (h0 : b0 < 2 ^ 8) (h1 : b1 < 2 ^ 8) (h2 : b2 < 2 ^ 8) (h3 : b3 < 2 ^ 8)
    (h4 : b4 < 2 ^ 8) (h5 : b5 < 2 ^ 8) (h6 : b6 < 2 ^ 8) (h7 : b7 < 2 ^ 8) :
    (b0 + 2 ^ 8 * b1 + 2 ^ 16 * b2 + 2 ^ 24 * b3 + 2 ^ 32 * b4
        + 2 ^ 40 * b5 + 2 ^ 48 * b6 + 2 ^ 56 * b7) / 2 ^ 40
      / 2 ^ (8 * 1) % 2 ^ 8 * 2 ^ (8 * 1) = 2 ^ 8 * b6 := by
  omega

theorem swap64_term3 (b0 b1 b2 b3 b4 b5 b6 b7 : Nat)
    (h0 : b0 < 2 ^ 8) (h1 : b1 < 2 ^ 8) (h2 : b2 < 2 ^ 8) (h3 : b3 < 2 ^ 8)
    (h4 : b4 < 2 ^ 8) (h5 : b5 < 2 ^ 8) (h6 : b6 < 2 ^ 8) (h7 : b7 < 2 ^ 8) :
    (b0 + 2 ^ 8 * b1 + 2 ^ 16 * b2 + 2 ^ 24 * b3 + 2 ^ 32 * b4
        + 2 ^ 40 * b5 + 2 ^ 48 * b6 + 2 ^ 56 * b7) * 2 ^ 40 % 2 ^ 64
      / 2 ^ (8 * 6) % 2 ^ 8 * 2 ^ (8 * 6) = 2 ^ 48 * b1 := by
  omega

theorem swap64_term4 (b0 b1 b2 b3 b4 b5 b6 b7 : Nat)
    (h0 : b0 < 2 ^ 8) (h1 : b1 < 2 ^ 8) (h2 : b2 < 2 ^ 8) (h3 : b3 < 2 ^ 8)
    (h4 : b4 < 2 ^ 8) (h5 : b5 < 2 ^ 8) (h6 : b6 < 2 ^ 8) (h7 : b7 < 2 ^ 8) :
    (b0 + 2 ^ 8 * b1 + 2 ^ 16 * b2 + 2 ^ 24 * b3 + 2 ^ 32 * b4
        + 2 ^ 40 * b5 + 2 ^ 48 * b6 + 2 ^ 56 * b7) / 2 ^ 24
      / 2 ^ (8 * 2) % 2 ^ 8 * 2 ^ (8 * 2) = 2 ^ 16 * b5 := by
  omega

theorem swap64_term5 (b0 b1 b2 b3 b4 b5 b6 b7 : Nat)
    (h0 : b0 < 2 ^ 8) (h1 : b1 < 2 ^ 8) (h2 : b2 < 2 ^ 8) (h3 : b3 < 2 ^ 8)
    (h4 : b4 < 2 ^ 8) (h5 : b5 < 2 ^ 8) (h6 : b6 < 2 ^ 8) (h7 : b7 < 2 ^ 8) :
    (b0 + 2 ^ 8 * b1 + 2 ^ 16 * b2 + 2 ^ 24 * b3 + 2 ^ 32 * b4
        + 2 ^ 40 * b5 + 2 ^ 48 * b6 + 2 ^ 56 * b7) * 2 ^ 24 % 2 ^ 64
      / 2 ^ (8 * 5) % 2 ^ 8 * 2 ^ (8 * 5) = 2 ^ 40 * b2 := by
  omega

theorem swap64_term6 (b0 b1 b2 b3 b4 b5 b6 b7 : Nat)
    (h0 : b0 < 2 ^ 8) (h1 : b1 < 2 ^ 8) (h2 : b2 < 2 ^ 8) (h3 : b3 < 2 ^ 8)
    (h4 : b4 < 2 ^ 8) (h5 : b5 < 2 ^ 8) (h6 : b6 < 2 ^ 8) (h7 : b7 < 2 ^ 8) :
    (b0 + 2 ^ 8 * b1 + 2 ^ 16 * b2 + 2 ^ 24 * b3 + 2 ^ 32 * b4
        + 2 ^ 40 * b5 + 2 ^ 48 * b6 + 2 ^ 56 * b7) / 2 ^ 8
      / 2 ^ (8 * 3) % 2 ^ 8 * 2 ^ (8 * 3) = 2 ^ 24 * b4 := by
  omega

theorem swap64_term7 (b0 b1 b2 b3 b4 b5 b6 b7 : Nat)
    (h0 : b0 < 2 ^ 8) (h1 : b1 < 2 ^ 8) (h2 : b2 < 2 ^ 8) (h3 : b3 < 2 ^ 8)
    (h4 : b4 < 2 ^ 8) (h5 : b5 < 2 ^ 8) (h6 : b6 < 2 ^ 8) (h7 : b7 < 2 ^ 8) :
    (b0 + 2 ^ 8 * b1 + 2 ^ 16 * b2 + 2 ^ 24 * b3 + 2 ^ 32 * b4
        + 2 ^ 40 * b5 + 2 ^ 48 * b6 + 2 ^ 56 * b7) * 2 ^ 8 % 2 ^ 64
      / 2 ^ (8 * 4) % 2 ^ 8 * 2 ^ (8 * 4) = 2 ^ 32 * b3 := by
  omega

theorem swap_bytes_u64_bytes (b0 b1 b2 b3 b4 b5 b6 b7 : Nat)
    (h0 : b0 < 2 ^ 8) (h1 : b1 < 2 ^ 8) (h2 : b2 < 2 ^ 8) (h3 : b3 < 2 ^ 8)
    (h4 : b4 < 2 ^ 8) (h5 : b5 < 2 ^ 8) (h6 : b6 < 2 ^ 8) (h7 : b7 < 2 ^ 8) :
    swap_bytes_u64 (b0 + 2 ^ 8 * b1 + 2 ^ 16 * b2 + 2 ^ 24 * b3 + 2 ^ 32 * b4
        + 2 ^ 40 * b5 + 2 ^ 48 * b6 + 2 ^ 56 * b7) =
      b7 + 2 ^ 8 * b6 + 2 ^ 16 * b5 + 2 ^ 24 * b4 + 2 ^ 32 * b3
        + 2 ^ 40 * b2 + 2 ^ 48 * b1 + 2 ^ 56 * b0 := by
  unfold swap_bytes_u64 maskByte
  rw [swap64_term0 b0 b1 b2 b3 b4 b5 b6 b7 h0 h1 h2 h3 h4 h5 h6 h7,
    swap64_term1 b0 b1 b2 b3 b4 b5 b6 b7 h0 h1 h2 h3 h4 h5 h6 h7,
    swap64_term2 b0 b1 b2 b3 b4 b5 b6 b7 h0 h1 h2 h3 h4 h5 h6 h7,
    swap64_term3 b0 b1 b2 b3 b4 b5 b6 b7 h0 h1 h2 h3 h4 h5 h6 h7,
    swap64_term4 b0 b1 b2 b3 b4 b5 b6 b7 h0 h1 h2 h3 h4 h5 h6 h7,
    swap64_term5 b0 b1 b2 b3 b4 b5 b6 b7 h0 h1 h2 h3 h4 h5 h6 h7,
    swap64_term6 b0 b1 b2 b3 b4 b5 b6 b7 h0 h1 h2 h3 h4 h5 h6 h7,
    swap64_term7 b0 b1 b2 b3 b4 b5 b6 b7 h0 h1 h2 h3 h4 h5 h6 h7]
  ring

theorem swap_bytes_u64_lt (v : Nat) (h : v < 2 ^ 64) : swap_bytes_u64 v < 2 ^ 64 := by
  have hv : v = v % 2 ^ 8 + 2 ^ 8 * (v / 2 ^ 8 % 2 ^ 8) + 2 ^ 16 * (v / 2 ^ 16 % 2 ^ 8)
      + 2 ^ 24 * (v / 2 ^ 24 % 2 ^ 8) + 2 ^ 32 * (v / 2 ^ 32 % 2 ^ 8)
      + 2 ^ 40 * (v / 2 ^ 40 % 2 ^ 8) + 2 ^ 48 * (v / 2 ^ 48 % 2 ^ 8)
      + 2 ^ 56 * (v / 2 ^ 56 % 2 ^ 8) := by omega
  rw [hv, swap_bytes_u64_bytes] <;> omega

theorem swap_bytes_u64_invol (v : Nat) (h : v < 2 ^ 64) :
    swap_bytes_u64 (swap_bytes_u64 v) = v := by
  have hv : v = v % 2 ^ 8 + 2 ^ 8 * (v / 2 ^ 8 % 2 ^ 8) + 2 ^ 16 * (v / 2 ^ 16 % 2 ^ 8)
      + 2 ^ 24 * (v / 2 ^ 24 % 2 ^ 8) + 2 ^ 32 * (v / 2 ^ 32 % 2 ^ 8)
      + 2 ^ 40 * (v / 2 ^ 40 % 2 ^ 8) + 2 ^ 48 * (v / 2 ^ 48 % 2 ^ 8)
      + 2 ^ 56 * (v / 2 ^ 56 % 2 ^ 8) := by omega
  rw [hv, swap_bytes_u64_bytes, swap_bytes_u64_bytes] <;> omega

/-! ## Byte images and raw memory operations

A memcpy of a w-byte machine value on the little-endian host writes the
little-endian byte image of its pattern; reinterpreting w bytes as a value
reads them back in the same order.  The packet container std::array is a
list of byte values with element access by index. -/

/-- Little-endian byte image of the low w bytes of a pattern (what memcpy of
a w-byte value writes on the little-endian host). -/
def leBytes : Nat → Nat → List Nat
  | 0, _ => []
  | w + 1, v => v % 2 ^ 8 :: leBytes w (v / 2 ^ 8)

/-- Pattern read back from a little-endian byte image (what reinterpreting
the bytes as a w-byte unsigned value yields on the little-endian host). -/
def fromLeBytes : List Nat → Nat
  | [] => 0
  | b :: bs => b + 2 ^ 8 * fromLeBytes bs

/-- The n bytes at positions pos, pos+1, ... of a byte container (the source
of a memcpy out of the container). -/
def readBytes (d : List Nat) (pos : Nat) : Nat → List Nat
  | 0 => []
  | n + 1 => d.getD pos 0 :: readBytes d (pos + 1) n

/-- Writing a byte sequence into a container starting at position pos (the
destination side of a memcpy into the container). -/
def writeBytes (d : List Nat) (pos : Nat) : List Nat → List Nat
  | [] => d
  | b :: bs => writeBytes (d.set pos b) (pos + 1) bs

theorem leBytes_length : ∀ (w v : Nat), (leBytes w v).length = w := by
  intro w
  induction w with
  | zero => intro v; rfl
  | succ n ih => intro v; simp [leBytes, ih]

theorem fromLeBytes_leBytes : ∀ (w v : Nat), fromLeBytes (leBytes w v) = v % 2 ^ (8 * w) := by
  intro w
  induction w with
  | zero => intro v; simp [leBytes, fromLeBytes]; omega
  | succ n ih =>
      intro v
      have hsplit : (2 : Nat) ^ (8 * (n + 1)) = 2 ^ 8 * 2 ^ (8 * n) := by
        rw [← pow_add]; ring_nf
      have hdm := Nat.div_add_mod (v % (2 ^ 8 * 2 ^ (8 * n))) (2 ^ 8)
      have h1 : v % (2 ^ 8 * 2 ^ (8 * n)) % 2 ^ 8 = v % 2 ^ 8 :=
        Nat.mod_mod_of_dvd v ⟨2 ^ (8 * n), rfl⟩
      have h2 : v % (2 ^ 8 * 2 ^ (8 * n)) / 2 ^ 8 = v / 2 ^ 8 % 2 ^ (8 * n) :=
        Nat.mod_mul_right_div_self v (2 ^ 8) (2 ^ (8 * n))
      simp only [leBytes, fromLeBytes, ih, hsplit]
      omega

theorem writeBytes_length : ∀ (bs d : List Nat) (pos : Nat),
    (writeBytes d pos bs).length = d.length := by
  intro bs
  induction bs with
  | nil => intro d pos; rfl
  | cons b bs ih => intro d pos; simp [writeBytes, ih]

theorem writeBytes_getD_lt : ∀ (bs d : List Nat) (pos q : Nat), q < pos →
    (writeBytes d pos bs).getD q 0 = d.getD q 0 := by
  intro bs
  induction bs with
  | nil => intro d pos q hq; rfl
  | cons b bs ih =>
      intro d pos q hq
      rw [writeBytes, ih (d.set pos b) (pos + 1) q (by omega)]
      simp only [List.getD_eq_getElem?_getD]
      rw [List.getElem?_set_ne (by omega)]

theorem readBytes_writeBytes : ∀ (bs d : List Nat) (pos : Nat),
    pos + bs.length ≤ d.length →
    readBytes (writeBytes d pos bs) pos bs.length = bs := by
  intro bs
  induction bs with
  | nil => intro d pos hlen; rfl
  | cons b bs ih =>
      intro d pos hlen
      simp only [List.length_cons, writeBytes, readBytes]
      have hpos : pos < d.length := by simp at hlen; omega
      have hhead : (writeBytes (d.set pos b) (pos + 1) bs).getD pos 0 = b := by
        rw [writeBytes_getD_lt bs (d.set pos b) (pos + 1) pos (by omega)]
        simp only [List.getD_eq_getElem?_getD]
        rw [List.getElem?_set_self hpos]
        rfl
      have htail : readBytes (writeBytes (d.set pos b) (pos + 1) bs) (pos + 1) bs.length = bs :=
        ih (d.set pos b) (pos + 1) (by simp at hlen ⊢; omega)
      rw [hhead, htail]

/-! ## Packet.h: the fixed-capacity packet codec

bsw/src/communication/Packet.h, template class Packet<Size>.  The capacity
is the length of m_data (m_data.size() in the source).  Each insertion
operator (operator<<) converts its operand to network byte order where the
source does and then calls append, which memcpys the little-endian byte
image of the passed value at the write cursor; each extraction operator
(operator>>) reinterprets the bytes at the read cursor and converts from
network byte order.  Lean does not allow operator names, so the insertion
operators are named put_* and the extraction operators get_*. -/

structure Packet where
  m_data : List Nat
  m_write_pos : Nat
  m_read_pos : Nat

/-- get_size (Packet.h lines 74 to 77): the static size of the container. -/
def Packet.get_size (p : Packet) : Nat := p.m_data.length

/-- clear (Packet.h lines 99 to 103): resets both cursors, keeps the data. -/
def Packet.clear (p : Packet) : Packet :=
  { p with m_write_pos := 0, m_read_pos := 0 }

/-- is_writable (Packet.h lines 155 to 159):
`(m_write_pos + bytes_to_write <= m_data.size()) && (bytes_to_write > 0)`. -/
def Packet.is_writable (p : Packet) (bytes_to_write : Nat) : Bool :=
  decide (p.m_write_pos + bytes_to_write ≤ p.m_data.length) && decide (bytes_to_write > 0)

/-- is_readable (Packet.h lines 167 to 171):
`(m_read_pos + bytes_to_read <= m_data.size()) && (bytes_to_read > 0)`.
Note the bound is the total capacity, not the write cursor. -/
def Packet.is_readable (p : Packet) (bytes_to_read : Nat) : Bool :=
  decide (p.m_read_pos + bytes_to_read ≤ p.m_data.length) && decide (bytes_to_read > 0)

/-- The numeric append overload (Packet.h lines 180 to 191): if
is_writable(sizeof T) holds, memcpy the sizeof(T) = w bytes of the passed
value (pattern v) at the write cursor and advance it; otherwise do
nothing. -/
def Packet.append (p : Packet) (w : Nat) (v : Nat) : Packet :=
  if p.is_writable w then
    { p with m_data := writeBytes p.m_data p.m_write_pos (leBytes w v),
             m_write_pos := p.m_write_pos + w }
  else p

/-- The char-array append overload (Packet.h lines 197 to 211): first
stores the length with `*this << bytes_to_write` (a 4-byte uint32 in
network order, itself guarded only by its own 4-byte is_writable check),
then, if is_writable(bytes_to_write) holds, memcpys the string bytes and
advances the write cursor. -/
def Packet.append_str (p : Packet) (s : List Nat) : Packet :=
  let bytes_to_write := s.length
  let p1 := p.append 4 (to_network_u32 bytes_to_write)
  if p1.is_writable bytes_to_write then
    { p1 with m_data := writeBytes p1.m_data p1.m_write_pos s,
              m_write_pos := p1.m_write_pos + bytes_to_write }
  else p1

/-- skip (Packet.h lines 217 to 228): advances the read cursor by the
given number of bytes when is_readable holds. -/
def Packet.skip (p : Packet) (bytes : Nat) : Packet × Bool :=
  if p.is_readable bytes then
    ({ p with m_read_pos := p.m_read_pos + bytes }, true)
  else (p, false)

/-- Shared skeleton of the numeric extraction operators (Packet.h lines
260 to 462): each one checks is_readable(sizeof T), reinterprets the
sizeof(T) = w bytes at the read cursor, applies the per-type conversion
conv and advances the read cursor; when the check fails the packet and the
destination variable (passed as data, returned in the second component)
are left untouched. -/
def Packet.extract {α : Type} (p : Packet) (w : Nat) (conv : Nat → α) (data : α) :
    Packet × α :=
  if p.is_readable w then
    ({ p with m_read_pos := p.m_read_pos + w },
     conv (fromLeBytes (readBytes p.m_data p.m_read_pos w)))
  else (p, data)

/-- operator>> for uint8 (Packet.h lines 260 to 271): `data =
m_data[m_read_pos]`, no byte-order conversion. -/
def Packet.get_u8 (p : Packet) (data : Nat) : Packet × Nat :=
  p.extract 1 (fun n => n) data

/-- operator>> for int8 (Packet.h lines 279 to 290): the byte is assigned
to an int8, that is read as a twos-complement pattern. -/
def Packet.get_s8 (p : Packet) (data : Int) : Packet × Int :=
  p.extract 1 (fun n => ofPattern 8 n) data

/-- operator>> for bool (Packet.h lines 236 to 252): reads a uint8 into a
local initialized to 0 and then unconditionally assigns `bool_as_num != 0`
to the destination, also when the inner read was out of bounds. -/
def Packet.get_bool (p : Packet) (data : Bool) : Packet × Bool :=
  let r := p.get_u8 0
  (r.1, if r.2 = 0 then false else true)

/-- operator>> for uint16 (Packet.h lines 298 to 311): reinterpret two
bytes as a uint16 and convert with from_network. -/
def Packet.get_u16 (p : Packet) (data : Nat) : Packet × Nat :=
  p.extract 2 (fun n => from_network_u16 n) data

/-- operator>> for int16 (Packet.h lines 319 to 332). -/
def Packet.get_s16 (p : Packet) (data : Int) : Packet × Int :=
  p.extract 2 (fun n => from_network_s16 (ofPattern 16 n)) data

/-- operator>> for uint32 (Packet.h lines 341 to 354). -/
def Packet.get_u32 (p : Packet) (data : Nat) : Packet × Nat :=
  p.extract 4 (fun n => from_network_u32 n) data

/-- operator>> for int32 (Packet.h lines 362 to 375). -/
def Packet.get_s32 (p : Packet) (data : Int) : Packet × Int :=
  p.extract 4 (fun n => from_network_s32 (ofPattern 32 n)) data

/-- operator>> for uint64 (Packet.h lines 383 to 396). -/
def Packet.get_u64 (p : Packet) (data : Nat) : Packet × Nat :=
  p.extract 8 (fun n => from_network_u64 n) data

/-- operator>> for int64 (Packet.h lines 404 to 417). -/
def Packet.get_s64 (p : Packet) (data : Int) : Packet × Int :=
  p.extract 8 (fun n => from_network_s64 (ofPattern 64 n)) data

/-- operator>> for float (Packet.h lines 425 to 441): reads the four bytes
as a uint32, converts with from_network and memcpys the result into the
float; data is the IEEE-754 bit pattern of the destination. -/
def Packet.get_f32 (p : Packet) (data : Nat) : Packet × Nat :=
  p.extract 4 (fun n => from_network_u32 n) data

/-- operator>> for double (Packet.h lines 447 to 462). -/
def Packet.get_f64 (p : Packet) (data : Nat) : Packet × Nat :=
  p.extract 8 (fun n => from_network_u64 n) data

/-- operator>> for char arrays (Packet.h lines 468 to 483): reads a uint32
length prefix into a local initialized to 0, then, if that many bytes are
readable, copies them into the caller buffer (returned here as a list; the
source also stores a terminating 0 one past them, with no check against
the destination capacity) and advances the read cursor. -/
def Packet.get_str (p : Packet) : Packet × List Nat :=
  let r := p.get_u32 0
  let p1 := r.1
  let bytes_to_read := r.2
  if p1.is_readable bytes_to_read then
    ({ p1 with m_read_pos := p1.m_read_pos + bytes_to_read },
     readBytes p1.m_data p1.m_read_pos bytes_to_read)
  else (p1, [])

/-- operator<< for uint8 (Packet.h lines 490 to 494): append, no
byte-order conversion. -/
def Packet.put_u8 (p : Packet) (data : Nat) : Packet :=
  p.append 1 data

/-- operator<< for int8 (Packet.h lines 502 to 506): append of the int8
pattern, no byte-order conversion. -/
def Packet.put_s8 (p : Packet) (data : Int) : Packet :=
  p.append 1 (toPattern 8 data)

/-- operator<< for bool (Packet.h lines 515 to 530): forwards 1 or 0 to
the uint8 operator. -/
def Packet.put_bool (p : Packet) (data : Bool) : Packet :=
  if data then p.put_u8 1 else p.put_u8 0

/-- operator<< for uint16 (Packet.h lines 538 to 543): append of
to_network(data). -/
def Packet.put_u16 (p : Packet) (data : Nat) : Packet :=
  p.append 2 (to_network_u16 data)

/-- operator<< for int16 (Packet.h lines 551 to 556). -/
def Packet.put_s16 (p : Packet) (data : Int) : Packet :=
  p.append 2 (toPattern 16 (to_network_s16 data))

/-- operator<< for uint32 (Packet.h lines 564 to 569). -/
def Packet.put_u32 (p : Packet) (data : Nat) : Packet :=
  p.append 4 (to_network_u32 data)

/-- operator<< for int32 (Packet.h lines 576 to 581; the source appends
the converted value as a uint32, same byte image as the int32 pattern). -/
def Packet.put_s32 (p : Packet) (data : Int) : Packet :=
  p.append 4 (toPattern 32 (to_network_s32 data))

/-- operator<< for uint64 (Packet.h lines 588 to 593). -/
def Packet.put_u64 (p : Packet) (data : Nat) : Packet :=
  p.append 8 (to_network_u64 data)

/-- operator<< for int64 (Packet.h lines 600 to 605). -/
def Packet.put_s64 (p : Packet) (data : Int) : Packet :=
  p.append 8 (toPattern 64 (to_network_s64 data))

/-- operator<< for float (Packet.h lines 612 to 620): reinterprets the
float as its uint32 bit pattern, converts with to_network and appends;
data is the IEEE-754 bit pattern of the operand. -/
def Packet.put_f32 (p : Packet) (data : Nat) : Packet :=
  p.append 4 (to_network_u32 data)

/-- operator<< for double (Packet.h lines 627 to 635). -/
def Packet.put_f64 (p : Packet) (data : Nat) : Packet :=
  p.append 8 (to_network_u64 data)

/-- operator<< for char arrays (Packet.h lines 642 to 646): forwards to
the char-array append overload. -/
def Packet.put_str (p : Packet) (s : List Nat) : Packet :=
  p.append_str s

/-! ## Packet codec round-trip lemmas -/

theorem readBytes_writeBytes_le (d : List Nat) (pos w V : Nat) (h : pos + w ≤ d.length) :
    readBytes (writeBytes d pos (leBytes w V)) pos w = leBytes w V := by
  have hl := leBytes_length w V
  calc readBytes (writeBytes d pos (leBytes w V)) pos w
      = readBytes (writeBytes d pos (leBytes w V)) pos (leBytes w V).length := by rw [hl]
    _ = leBytes w V := readBytes_writeBytes (leBytes w V) d pos (by rw [hl]; omega)

/-- Extracting w bytes immediately after appending a w-byte pattern V at the
same position recovers V (fed through the extraction conversion). -/
theorem Packet.extract_append {α : Type} (p : Packet) (w V : Nat) (conv : Nat → α) (old : α)
    (hpos : p.m_read_pos = p.m_write_pos)
    (hcap : p.m_write_pos + w ≤ p.m_data.length)
    (hw : 0 < w) (hV : V < 2 ^ (8 * w)) :
    ((p.append w V).extract w conv old).2 = conv V := by
  have hwrit : p.is_writable w = true := by
    simp [Packet.is_writable]; omega
  have happ : p.append w V =
      { p with m_data := writeBytes p.m_data p.m_write_pos (leBytes w V),
               m_write_pos := p.m_write_pos + w } := by
    simp [Packet.append, hwrit]
  have hread : (p.append w V).is_readable w = true := by
    rw [happ]
    simp [Packet.is_readable, writeBytes_length]
    omega
  rw [Packet.extract, hread]
  simp only [if_true]
  rw [happ]
  simp only
  rw [hpos, readBytes_writeBytes_le p.m_data p.m_write_pos w V hcap,
    fromLeBytes_leBytes, Nat.mod_eq_of_lt hV]

theorem from_to_network_u16 (v : Nat) (h : v < 2 ^ 16) :
    from_network_u16 (to_network_u16 v) = v := by
  unfold from_network_u16 to_network_u16
  exact swap_bytes_u16_invol v h

theorem from_to_network_u32 (v : Nat) (h : v < 2 ^ 32) :
    from_network_u32 (to_network_u32 v) = v := by
  unfold from_network_u32 to_network_u32
  exact swap_bytes_u32_invol v h

theorem from_to_network_u64 (v : Nat) (h : v < 2 ^ 64) :
    from_network_u64 (to_network_u64 v) = v := by
  unfold from_network_u64 to_network_u64
  exact swap_bytes_u64_invol v h

theorem from_to_network_s16 (v : Int) (hlo : -(2 ^ 15) ≤ v) (hhi : v < 2 ^ 15) :
    from_network_s16 (ofPattern 16 (toPattern 16 (to_network_s16 v))) = v := by
  have hA : toPattern 16 v < 2 ^ 16 := toPattern_lt16 v
  have hsA : swap_bytes_u16 (toPattern 16 v) < 2 ^ 16 :=
    swap_bytes_u16_lt (toPattern 16 v) hA
  unfold from_network_s16 to_network_s16 swap_bytes_s16
  rw [toPattern_ofPattern16 (swap_bytes_u16 (toPattern 16 v)) hsA,
    toPattern_ofPattern16 (swap_bytes_u16 (toPattern 16 v)) hsA,
    swap_bytes_u16_invol (toPattern 16 v) hA,
    ofPattern_toPattern16 v hlo hhi]

theorem from_to_network_s32 (v : Int) (hlo : -(2 ^ 31) ≤ v) (hhi : v < 2 ^ 31) :
    from_network_s32 (ofPattern 32 (toPattern 32 (to_network_s32 v))) = v := by
  have hA : toPattern 32 v < 2 ^ 32 := toPattern_lt32 v
  have hsA : swap_bytes_u32 (toPattern 32 v) < 2 ^ 32 :=
    swap_bytes_u32_lt (toPattern 32 v) hA
  unfold from_network_s32 to_network_s32 swap_bytes_s32
  rw [toPattern_ofPattern32 (swap_bytes_u32 (toPattern 32 v)) hsA,
    toPattern_ofPattern32 (swap_bytes_u32 (toPattern 32 v)) hsA,
    swap_bytes_u32_invol (toPattern 32 v) hA,
    ofPattern_toPattern32 v hlo hhi]

theorem from_to_network_s64 (v : Int) (hlo : -(2 ^ 63) ≤ v) (hhi : v < 2 ^ 63) :
    from_network_s64 (ofPattern 64 (toPattern 64 (to_network_s64 v))) = v := by
  have hA : toPattern 64 v < 2 ^ 64 := toPattern_lt64 v
  have hsA : swap_bytes_u64 (toPattern 64 v) < 2 ^ 64 :=
    swap_bytes_u64_lt (toPattern 64 v) hA
  unfold from_network_s64 to_network_s64 swap_bytes_s64
  rw [toPattern_ofPattern64 (swap_bytes_u64 (toPattern 64 v)) hsA,
    toPattern_ofPattern64 (swap_bytes_u64 (toPattern 64 v)) hsA,
    swap_bytes_u64_invol (toPattern 64 v) hA,
    ofPattern_toPattern64 v hlo hhi]

/-- C1: for every supported numeric type (unsigned and signed 1-, 2-, 4-,
8-byte integers, float32, float64, boolean; the floats represented by their
IEEE-754 bit patterns) and every in-range value v, appending v with the
insertion operator to a Packet whose remaining capacity holds the value and
then extracting with the extraction operator from the same position yields
exactly v, including boundary patterns such as the minimum and maximum
representable integers and negative floats. -/
theorem C1_roundtrip :
    (∀ (p : Packet) (v old : Nat), p.m_read_pos = p.m_write_pos →
      p.m_write_pos + 1 ≤ p.m_data.length → v < 2 ^ 8 →
      ((p.put_u8 v).get_u8 old).2 = v)
    ∧ (∀ (p : Packet) (v old : Int), p.m_read_pos = p.m_write_pos →
      p.m_write_pos + 1 ≤ p.m_data.length → -(2 ^ 7) ≤ v → v < 2 ^ 7 →
      ((p.put_s8 v).get_s8 old).2 = v)
    ∧ (∀ (p : Packet) (v old : Nat), p.m_read_pos = p.m_write_pos →
      p.m_write_pos + 2 ≤ p.m_data.length → v < 2 ^ 16 →
      ((p.put_u16 v).get_u16 old).2 = v)
    ∧ (∀ (p : Packet) (v old : Int), p.m_read_pos = p.m_write_pos →
      p.m_write_pos + 2 ≤ p.m_data.length → -(2 ^ 15) ≤ v → v < 2 ^ 15 →
      ((p.put_s16 v).get_s16 old).2 = v)
    ∧ (∀ (p : Packet) (v old : Nat), p.m_read_pos = p.m_write_pos →
      p.m_write_pos + 4 ≤ p.m_data.length → v < 2 ^ 32 →
      ((p.put_u32 v).get_u32 old).2 = v)
    ∧ (∀ (p : Packet) (v old : Int), p.m_read_pos = p.m_write_pos →
      p.m_write_pos + 4 ≤ p.m_data.length → -(2 ^ 31) ≤ v → v < 2 ^ 31 →
      ((p.put_s32 v).get_s32 old).2 = v)
    ∧ (∀ (p : Packet) (v old : Nat), p.m_read_pos = p.m_write_pos →
      p.m_write_pos + 8 ≤ p.m_data.length → v < 2 ^ 64 →
      ((p.put_u64 v).get_u64 old).2 = v)
    ∧ (∀ (p : Packet) (v old : Int), p.m_read_pos = p.m_write_pos →
      p.m_write_pos + 8 ≤ p.m_data.length → -(2 ^ 63) ≤ v → v < 2 ^ 63 →
      ((p.put_s64 v).get_s64 old).2 = v)
    ∧ (∀ (p : Packet) (v old : Nat), p.m_read_pos = p.m_write_pos →
      p.m_write_pos + 4 ≤ p.m_data.length → v < 2 ^ 32 →
      ((p.put_f32 v).get_f32 old).2 = v)
    ∧ (∀ (p : Packet) (v old : Nat), p.m_read_pos = p.m_write_pos →
      p.m_write_pos + 8 ≤ p.m_data.length → v < 2 ^ 64 →
      ((p.put_f64 v).get_f64 old).2 = v)
    ∧ (∀ (p : Packet) (b : Bool) (old : Bool), p.m_read_pos = p.m_write_pos →
      p.m_write_pos + 1 ≤ p.m_data.length →
      ((p.put_bool b).get_bool old).2 = b) := by
  refine ⟨?_, ?_, ?_, ?_, ?_, ?_, ?_, ?_, ?_, ?_, ?_⟩
  · intro p v old h1 h2 h3
    exact Packet.extract_append p 1 v (fun n => n) old h1 h2 (by omega) (by omega)
  · intro p v old h1 h2 hlo hhi
    have h := Packet.extract_append p 1 (toPattern 8 v) (fun n => ofPattern 8 n) old h1 h2
      (by omega) (by have := toPattern_lt8 v; omega)
    exact h.trans (ofPattern_toPattern8 v hlo hhi)
  · intro p v old h1 h2 h3
    have h := Packet.extract_append p 2 (to_network_u16 v) (fun n => from_network_u16 n) old
      h1 h2 (by omega) (by have := swap_bytes_u16_lt v h3; simpa [to_network_u16] using this)
    exact h.trans (from_to_network_u16 v h3)
  · intro p v old h1 h2 hlo hhi
    have h := Packet.extract_append p 2 (toPattern 16 (to_network_s16 v))
      (fun n => from_network_s16 (ofPattern 16 n)) old h1 h2
      (by omega) (by have := toPattern_lt16 (to_network_s16 v); omega)
    exact h.trans (from_to_network_s16 v hlo hhi)
  · intro p v old h1 h2 h3
    have h := Packet.extract_append p 4 (to_network_u32 v) (fun n => from_network_u32 n) old
      h1 h2 (by omega) (by have := swap_bytes_u32_lt v h3; simpa [to_network_u32] using this)
    exact h.trans (from_to_network_u32 v h3)
  · intro p v old h1 h2 hlo hhi
    have h := Packet.extract_append p 4 (toPattern 32 (to_network_s32 v))
      (fun n => from_network_s32 (ofPattern 32 n)) old h1 h2
      (by omega) (by have := toPattern_lt32 (to_network_s32 v); omega)
    exact h.trans (from_to_network_s32 v hlo hhi)
  · intro p v old h1 h2 h3
    have h := Packet.extract_append p 8 (to_network_u64 v) (fun n => from_network_u64 n) old
      h1 h2 (by omega) (by have := swap_bytes_u64_lt v h3; simpa [to_network_u64] using this)
    exact h.trans (from_to_network_u64 v h3)
  · intro p v old h1 h2 hlo hhi
    have h := Packet.extract_append p 8 (toPattern 64 (to_network_s64 v))
      (fun n => from_network_s64 (ofPattern 64 n)) old h1 h2
      (by omega) (by have := toPattern_lt64 (to_network_s64 v); omega)
    exact h.trans (from_to_network_s64 v hlo hhi)
  · intro p v old h1 h2 h3
    have h := Packet.extract_append p 4 (to_network_u32 v) (fun n => from_network_u32 n) old
      h1 h2 (by omega) (by have := swap_bytes_u32_lt v h3; simpa [to_network_u32] using this)
    exact h.trans (from_to_network_u32 v h3)
  · intro p v old h1 h2 h3
    have h := Packet.extract_append p 8 (to_network_u64 v) (fun n => from_network_u64 n) old
      h1 h2 (by omega) (by have := swap_bytes_u64_lt v h3; simpa [to_network_u64] using this)
    exact h.trans (from_to_network_u64 v h3)
  · intro p b old h1 h2
    cases b with
    | true =>
        have h := Packet.extract_append p 1 1 (fun n => n) 0 h1 h2 (by omega) (by omega)
        simp [Packet.put_bool, Packet.get_bool, Packet.put_u8, Packet.get_u8, h]
    | false =>
        have h := Packet.extract_append p 1 0 (fun n => n) 0 h1 h2 (by omega) (by omega)
        simp [Packet.put_bool, Packet.get_bool, Packet.put_u8, Packet.get_u8, h]

/-- Witness for C1 on a concrete 8-byte packet: boundary values round-trip
(255, -128, 65535, -32768, 4294967295, -2147483648, the extreme 64-bit
integers, the bit patterns of the negative floats -1.5f and -1.5, and
true). -/
theorem C1_roundtrip_witness :
    (((Packet.mk (List.replicate 8 0) 0 0).put_u8 255).get_u8 0).2 = 255
    ∧ (((Packet.mk (List.replicate 8 0) 0 0).put_s8 (-128)).get_s8 0).2 = -128
    ∧ (((Packet.mk (List.replicate 8 0) 0 0).put_u16 65535).get_u16 0).2 = 65535
    ∧ (((Packet.mk (List.replicate 8 0) 0 0).put_s16 (-32768)).get_s16 0).2 = -32768
    ∧ (((Packet.mk (List.replicate 8 0) 0 0).put_u32 4294967295).get_u32 0).2 = 4294967295
    ∧ (((Packet.mk (List.replicate 8 0) 0 0).put_s32 (-2147483648)).get_s32 0).2 = -2147483648
    ∧ (((Packet.mk (List.replicate 8 0) 0 0).put_u64 18446744073709551615).get_u64 0).2
        = 18446744073709551615
    ∧ (((Packet.mk (List.replicate 8 0) 0 0).put_s64 (-9223372036854775808)).get_s64 0).2
        = -9223372036854775808
    ∧ (((Packet.mk (List.replicate 8 0) 0 0).put_f32 3217031168).get_f32 0).2 = 3217031168
    ∧ (((Packet.mk (List.replicate 8 0) 0 0).put_f64 13832806255468478464).get_f64 0).2
        = 13832806255468478464
    ∧ (((Packet.mk (List.replicate 8 0) 0 0).put_bool true).get_bool false).2 = true :=
  ⟨C1_roundtrip.1 (Packet.mk (List.replicate 8 0) 0 0) 255 0 rfl (by decide) (by decide),
   C1_roundtrip.2.1 (Packet.mk (List.replicate 8 0) 0 0) (-128) 0 rfl (by decide)
     (by decide) (by decide),
   C1_roundtrip.2.2.1 (Packet.mk (List.replicate 8 0) 0 0) 65535 0 rfl (by decide) (by decide),
   C1_roundtrip.2.2.2.1 (Packet.mk (List.replicate 8 0) 0 0) (-32768) 0 rfl (by decide)
     (by decide) (by decide),
   C1_roundtrip.2.2.2.2.1 (Packet.mk (List.replicate 8 0) 0 0) 4294967295 0 rfl (by decide)
     (by decide),
   C1_roundtrip.2.2.2.2.2.1 (Packet.mk (List.replicate 8 0) 0 0) (-2147483648) 0 rfl
     (by decide) (by decide) (by decide),
   C1_roundtrip.2.2.2.2.2.2.1 (Packet.mk (List.replicate 8 0) 0 0) 18446744073709551615 0 rfl
     (by decide) (by decide),
   C1_roundtrip.2.2.2.2.2.2.2.1 (Packet.mk (List.replicate 8 0) 0 0) (-9223372036854775808) 0
     rfl (by decide) (by decide) (by decide),
   C1_roundtrip.2.2.2.2.2.2.2.2.1 (Packet.mk (List.replicate 8 0) 0 0) 3217031168 0 rfl
     (by decide) (by decide),
   C1_roundtrip.2.2.2.2.2.2.2.2.2.1 (Packet.mk (List.replicate 8 0) 0 0) 13832806255468478464
     0 rfl (by decide) (by decide),
   C1_roundtrip.2.2.2.2.2.2.2.2.2.2 (Packet.mk (List.replicate 8 0) 0 0) true false rfl
     (by decide)⟩

/-! ## C3: out-of-bounds encodes and decodes -/

/-- Counterexample to C3 as stated: encoding the 3-byte string [1, 2, 3]
into a 5-byte packet needs 4 + 3 = 7 bytes, which does not fit, yet the
operation is not a no-op: the 4-byte length prefix alone fits, so the write
cursor advances to 4 and the buffer changes.  Also, decoding a bool past
the readable bound overwrites the destination with false even though the
read cursor stays put. -/
theorem C3_noop_counterexample :
    (Packet.mk (List.replicate 5 0) 0 0).m_write_pos + (4 + 3)
        > (Packet.mk (List.replicate 5 0) 0 0).m_data.length
    ∧ ((Packet.mk (List.replicate 5 0) 0 0).append_str [1, 2, 3]).m_write_pos
        ≠ (Packet.mk (List.replicate 5 0) 0 0).m_write_pos
    ∧ ((Packet.mk (List.replicate 5 0) 0 0).append_str [1, 2, 3]).m_data
        ≠ (Packet.mk (List.replicate 5 0) 0 0).m_data
    ∧ (Packet.mk [0] 0 1).is_readable 1 = false
    ∧ ((Packet.mk [0] 0 1).get_bool true).2 ≠ true := by
  decide

/-- C3 as amended: a numeric encode with insufficient remaining capacity is
a no-op, and a numeric non-bool decode past the readable bound leaves the
packet and the destination untouched; the bool decode leaves the read
cursor unchanged but overwrites the destination with false; string
encoding is staged, each stage guarded only by its own bounds check: it is
a no-op only when neither the 4-byte length prefix nor the body fits, and
when the prefix fits but the body does not, exactly the prefix is written;
string decoding likewise consumes the 4-byte prefix it read even when the
body is not readable.  No error is signaled in any of these cases. -/
theorem C3_noop :
    (∀ (p : Packet) (w v : Nat), p.is_writable w = false → p.append w v = p)
    ∧ (∀ (α : Type) (p : Packet) (w : Nat) (conv : Nat → α) (old : α),
        p.is_readable w = false → p.extract w conv old = (p, old))
    ∧ (∀ (p : Packet) (old : Bool), p.is_readable 1 = false →
        (p.get_bool old).1 = p ∧ (p.get_bool old).2 = false)
    ∧ (∀ (p : Packet) (s : List Nat), p.is_writable 4 = false →
        p.is_writable s.length = false → p.append_str s = p)
    ∧ (∀ (p : Packet) (s : List Nat),
        (p.append 4 (to_network_u32 s.length)).is_writable s.length = false →
        p.append_str s = p.append 4 (to_network_u32 s.length))
    ∧ (∀ (p : Packet), p.is_readable 4 = false → p.get_str = (p, []))
    ∧ (∀ (p : Packet), (p.get_u32 0).1.is_readable ((p.get_u32 0).2) = false →
        p.get_str = ((p.get_u32 0).1, [])) := by
  refine ⟨?_, ?_, ?_, ?_, ?_, ?_, ?_⟩
  · intro p w v h
    simp [Packet.append, h]
  · intro α p w conv old h
    simp [Packet.extract, h]
  · intro p old h
    simp [Packet.get_bool, Packet.get_u8, Packet.extract, h]
  · intro p s h1 h2
    have hp1 : p.append 4 (to_network_u32 s.length) = p := by simp [Packet.append, h1]
    simp only [Packet.append_str, hp1, h2]
    simp
  · intro p s h
    simp only [Packet.append_str, h]
    simp
  · intro p h
    have : p.get_u32 0 = (p, 0) := by simp [Packet.get_u32, Packet.extract, h]
    simp only [Packet.get_str, this]
    simp [Packet.is_readable]
  · intro p h
    simp only [Packet.get_str, h]
    simp

/-- Witness for C3 as amended, at concrete packets: a full 2-byte packet
rejects a 1-byte append and a 1-byte extract unchanged; a fully read 1-byte
packet decodes a bool to false without moving the cursor; a 1-byte packet
with the write cursor at the end rejects a whole 1-byte string; a 5-byte
packet absorbs only the length prefix of the string [1, 2, 3]; a 1-byte
packet rejects a string length prefix read; a 5-byte packet holding the
encoded length 3 at the front consumes only the prefix. -/
theorem C3_noop_witness :
    ((Packet.mk [0, 0] 2 2).is_writable 1 = false
      ∧ (Packet.mk [0, 0] 2 2).append 1 7 = Packet.mk [0, 0] 2 2)
    ∧ ((Packet.mk [0, 0] 2 2).is_readable 1 = false
      ∧ (Packet.mk [0, 0] 2 2).extract 1 (fun n => n) 7 = (Packet.mk [0, 0] 2 2, 7))
    ∧ ((Packet.mk [0] 0 1).is_readable 1 = false
      ∧ ((Packet.mk [0] 0 1).get_bool true).1 = Packet.mk [0] 0 1
      ∧ ((Packet.mk [0] 0 1).get_bool true).2 = false)
    ∧ ((Packet.mk [0] 1 0).is_writable 4 = false
      ∧ (Packet.mk [0] 1 0).is_writable [5].length = false
      ∧ (Packet.mk [0] 1 0).append_str [5] = Packet.mk [0] 1 0)
    ∧ (((Packet.mk (List.replicate 5 0) 0 0).append 4
          (to_network_u32 [1, 2, 3].length)).is_writable [1, 2, 3].length = false
      ∧ (Packet.mk (List.replicate 5 0) 0 0).append_str [1, 2, 3]
          = (Packet.mk (List.replicate 5 0) 0 0).append 4 (to_network_u32 [1, 2, 3].length))
    ∧ ((Packet.mk [0] 0 0).is_readable 4 = false
      ∧ (Packet.mk [0] 0 0).get_str = (Packet.mk [0] 0 0, []))
    ∧ (((Packet.mk [0, 0, 0, 3, 0] 0 0).get_u32 0).1.is_readable
          (((Packet.mk [0, 0, 0, 3, 0] 0 0).get_u32 0).2) = false
      ∧ (Packet.mk [0, 0, 0, 3, 0] 0 0).get_str
          = (((Packet.mk [0, 0, 0, 3, 0] 0 0).get_u32 0).1, [])) :=
  ⟨⟨by decide, C3_noop.1 (Packet.mk [0, 0] 2 2) 1 7 (by decide)⟩,
   ⟨by decide, C3_noop.2.1 Nat (Packet.mk [0, 0] 2 2) 1 (fun n => n) 7 (by decide)⟩,
   ⟨by decide, (C3_noop.2.2.1 (Packet.mk [0] 0 1) true (by decide)).1,
     (C3_noop.2.2.1 (Packet.mk [0] 0 1) true (by decide)).2⟩,
   ⟨by decide, by decide, C3_noop.2.2.2.1 (Packet.mk [0] 1 0) [5] (by decide) (by decide)⟩,
   ⟨by decide, C3_noop.2.2.2.2.1 (Packet.mk (List.replicate 5 0) 0 0) [1, 2, 3] (by decide)⟩,
   ⟨by decide, C3_noop.2.2.2.2.2.1 (Packet.mk [0] 0 0) (by decide)⟩,
   ⟨by decide, C3_noop.2.2.2.2.2.2 (Packet.mk [0, 0, 0, 3, 0] 0 0) (by decide)⟩⟩

/-! ## C4: the cursor invariant under sequences of packet operations -/

/-- One packet operation, as named in the claim: clear, a numeric append
(every insertion operator funnels into append with its width and pattern),
the string append, skip, and the extraction operators.  The destination
arguments of the extractions do not influence the packet state, so they are
fixed to defaults here. -/
inductive PacketOp where
  | op_clear
  | op_append (w v : Nat)
  | op_append_str (s : List Nat)
  | op_skip (n : Nat)
  | op_get_u8
  | op_get_s8
  | op_get_bool
  | op_get_u16
  | op_get_s16
  | op_get_u32
  | op_get_s32
  | op_get_u64
  | op_get_s64
  | op_get_f32
  | op_get_f64
  | op_get_str

/-- The packet state after one operation. -/
def applyOp (p : Packet) : PacketOp → Packet
  | .op_clear => p.clear
  | .op_append w v => p.append w v
  | .op_append_str s => p.append_str s
  | .op_skip n => (p.skip n).1
  | .op_get_u8 => (p.get_u8 0).1
  | .op_get_s8 => (p.get_s8 0).1
  | .op_get_bool => (p.get_bool false).1
  | .op_get_u16 => (p.get_u16 0).1
  | .op_get_s16 => (p.get_s16 0).1
  | .op_get_u32 => (p.get_u32 0).1
  | .op_get_s32 => (p.get_s32 0).1
  | .op_get_u64 => (p.get_u64 0).1
  | .op_get_s64 => (p.get_s64 0).1
  | .op_get_f32 => (p.get_f32 0).1
  | .op_get_f64 => (p.get_f64 0).1
  | .op_get_str => p.get_str.1

/-- The packet state after a sequence of operations. -/
def applyOps (p : Packet) (ops : List PacketOp) : Packet :=
  ops.foldl applyOp p

/-- Both cursors stay within the capacity (the cursors are uint32 fields,
modelled as Nat, so 0 ≤ cursor holds by type). -/
def cursorsInBounds (p : Packet) : Prop :=
  p.m_read_pos ≤ p.m_data.length ∧ p.m_write_pos ≤ p.m_data.length

instance (p : Packet) : Decidable (cursorsInBounds p) := by
  unfold cursorsInBounds; infer_instance

theorem append_cursorsInBounds (p : Packet) (w v : Nat) (h : cursorsInBounds p) :
    cursorsInBounds (p.append w v) := by
  obtain ⟨hr, hw⟩ := h
  unfold Packet.append
  split
  · rename_i hwrit
    simp only [Packet.is_writable, Bool.and_eq_true, decide_eq_true_eq] at hwrit
    constructor <;> simp [writeBytes_length] <;> omega
  · exact ⟨hr, hw⟩

theorem extract_cursorsInBounds (α : Type) (p : Packet) (w : Nat) (conv : Nat → α) (old : α)
    (h : cursorsInBounds p) : cursorsInBounds ((p.extract w conv old).1) := by
  obtain ⟨hr, hw⟩ := h
  unfold Packet.extract
  split
  · rename_i hread
    simp only [Packet.is_readable, Bool.and_eq_true, decide_eq_true_eq] at hread
    exact ⟨by simp; omega, by simp; omega⟩
  · exact ⟨hr, hw⟩

theorem applyOp_cursorsInBounds (p : Packet) (op : PacketOp) (h : cursorsInBounds p) :
    cursorsInBounds (applyOp p op) := by
  obtain ⟨hr, hw⟩ := h
  cases op with
  | op_clear => exact ⟨by simp [applyOp, Packet.clear], by simp [applyOp, Packet.clear]⟩
  | op_append w v => exact append_cursorsInBounds p w v ⟨hr, hw⟩
  | op_append_str s =>
      have h1 : cursorsInBounds (p.append 4 (to_network_u32 s.length)) :=
        append_cursorsInBounds p 4 _ ⟨hr, hw⟩
      obtain ⟨h1r, h1w⟩ := h1
      show cursorsInBounds (p.append_str s)
      unfold Packet.append_str
      simp only
      split
      · rename_i hwrit
        simp only [Packet.is_writable, Bool.and_eq_true, decide_eq_true_eq] at hwrit
        constructor <;> simp [writeBytes_length] <;> omega
      · exact ⟨h1r, h1w⟩
  | op_skip n =>
      show cursorsInBounds ((p.skip n).1)
      unfold Packet.skip
      split
      · rename_i hread
        simp only [Packet.is_readable, Bool.and_eq_true, decide_eq_true_eq] at hread
        exact ⟨by simp; omega, by simp; omega⟩
      · exact ⟨hr, hw⟩
  | op_get_u8 => exact extract_cursorsInBounds Nat p 1 _ 0 ⟨hr, hw⟩
  | op_get_s8 => exact extract_cursorsInBounds Int p 1 _ 0 ⟨hr, hw⟩
  | op_get_bool => exact extract_cursorsInBounds Nat p 1 _ 0 ⟨hr, hw⟩
  | op_get_u16 => exact extract_cursorsInBounds Nat p 2 _ 0 ⟨hr, hw⟩
  | op_get_s16 => exact extract_cursorsInBounds Int p 2 _ 0 ⟨hr, hw⟩
  | op_get_u32 => exact extract_cursorsInBounds Nat p 4 _ 0 ⟨hr, hw⟩
  | op_get_s32 => exact extract_cursorsInBounds Int p 4 _ 0 ⟨hr, hw⟩
  | op_get_u64 => exact extract_cursorsInBounds Nat p 8 _ 0 ⟨hr, hw⟩
  | op_get_s64 => exact extract_cursorsInBounds Int p 8 _ 0 ⟨hr, hw⟩
  | op_get_f32 => exact extract_cursorsInBounds Nat p 4 _ 0 ⟨hr, hw⟩
  | op_get_f64 => exact extract_cursorsInBounds Nat p 8 _ 0 ⟨hr, hw⟩
  | op_get_str =>
      have h1 : cursorsInBounds ((p.get_u32 0).1) :=
        extract_cursorsInBounds Nat p 4 _ 0 ⟨hr, hw⟩
      obtain ⟨h1r, h1w⟩ := h1
      show cursorsInBounds (p.get_str.1)
      unfold Packet.get_str
      simp only
      split
      · rename_i hread
        simp only [Packet.is_readable, Bool.and_eq_true, decide_eq_true_eq] at hread
        exact ⟨by simp; omega, by simp; omega⟩
      · exact ⟨h1r, h1w⟩

/-- Counterexample to C4 as stated: on a cleared 1-byte packet (cursors 0,
0, satisfying 0 ≤ read ≤ write ≤ capacity) a single uint8 extraction
advances the read cursor to 1 while the write cursor stays 0, because
is_readable bounds reads by the total capacity and not by the write
cursor; so the claimed invariant read ≤ write is not preserved. -/
theorem C4_invariant_counterexample :
    (Packet.mk [0] 0 0).m_read_pos ≤ (Packet.mk [0] 0 0).m_write_pos
    ∧ (Packet.mk [0] 0 0).m_write_pos ≤ (Packet.mk [0] 0 0).m_data.length
    ∧ (applyOps (Packet.mk [0] 0 0) [PacketOp.op_get_u8]).m_read_pos
        > (applyOps (Packet.mk [0] 0 0) [PacketOp.op_get_u8]).m_write_pos := by
  decide

/-- C4 as amended: every sequence of packet operations (clear,
append / insertion, skip, extraction) preserves 0 ≤ read cursor ≤ capacity
and 0 ≤ write cursor ≤ capacity; the read cursor can however pass the
write cursor, because is_readable checks against the total capacity and
not the write extent. -/
theorem C4_invariant (ops : List PacketOp) (p : Packet) (h : cursorsInBounds p) :
    cursorsInBounds (applyOps p ops) := by
  induction ops generalizing p with
  | nil => exact h
  | cons op ops ih =>
      show cursorsInBounds (applyOps (applyOp p op) ops)
      exact ih (applyOp p op) (applyOp_cursorsInBounds p op h)

/-- Witness for C4 as amended: a concrete sequence (append a byte, read it,
read once more past the write extent, skip nothing readable, clear, append
a string) keeps both cursors within the 5-byte capacity. -/
theorem C4_invariant_witness :
    cursorsInBounds (applyOps (Packet.mk (List.replicate 5 0) 0 0)
      [PacketOp.op_append 1 255, PacketOp.op_get_u8, PacketOp.op_get_u32,
       PacketOp.op_skip 1, PacketOp.op_clear, PacketOp.op_append_str [7],
       PacketOp.op_get_str, PacketOp.op_get_bool]) :=
  C4_invariant _ (Packet.mk (List.replicate 5 0) 0 0) (by decide)

/-! ## CanSocket: send and receive

The CAN transport.  The caller payload array (CanStdData = 8 bytes,
CanFDData = 64 bytes) is a list of byte values; an element access past its
length is modelled by a none result of indexing with get?.  The OS calls
(write, read, select / poll_activity) are oracles passed in as arguments:
a read either fails, returns 0 (end of stream), or delivers a frame. -/

/-- The frame CanSocket::send builds and hands to write, together with the
caller-array reads its copy loop performs: can_id and len are the fields
set in the struct (after memset 0), data_reads lists the results of the
accesses data[0], ..., data[len - 1] made by
`for (i = 0; i < len; ++i) frame.data[i] = data[i]`; a none entry is an
access past the end of the caller array. -/
structure CanSendFrame where
  can_id : Nat
  len : Nat
  data_reads : List (Option Nat)
  deriving DecidableEq

/-- CanSocket::send (bsw CanSocket.h lines 180 to 227, the template for
both standard and FD frames).  Rejected (returns -1, modelled none) unless
the transport is initialized and len > 0; otherwise the frame gets
`frame.len = min(len, data.size())` and the copy loop runs i < len over
the caller array. -/
def can_send (can_init : Bool) (can_id : Nat) (data : List Nat) (len : Nat) :
    Option CanSendFrame :=
  if can_init = true ∧ len > 0 then
    some { can_id := can_id,
           len := min len data.length,
           data_reads := (List.range len).map (fun i => data[i]?) }
  else none

/-- CanSocket::send (older generation, src/CanSocket.cpp lines 117 to 180):
standard frames only, the clamp is `if (len < 8) dlc = len else dlc = 8`,
and the copy loop again runs i < len. -/
def can_send_old (m_init : Bool) (can_id : Nat) (data_ref : List Nat) (len : Nat) :
    Option CanSendFrame :=
  if m_init = true ∧ len > 0 then
    some { can_id := can_id,
           len := if len < 8 then len else 8,
           data_reads := (List.range len).map (fun i => data_ref[i]?) }
  else none

/-- Outcome of the read syscall on the CAN socket: an error (negative
return), a zero return, or a delivered classic frame (16 bytes read;
can_dlc and the 8 data bytes as stored in the struct). -/
inductive CanReadResult where
  | read_err
  | read_eof
  | read_frame (can_id : Nat) (can_dlc : Nat) (data : List Nat)

/-- CanSocket::receive, blocking variant (bsw CanSocket.cpp lines 187 to
225).  Returns the value of can_received (initialized to -1) and the list
of writes the copy loop `for (i = 0; i < frame.can_dlc; ++i)
data_ref[i] = frame.data[i]` performs into the caller array: pairs of
destination index and source byte (none when the source access is past the
8 data bytes of the frame struct).  On success can_received is the int8
cast of frame.can_dlc; on a read error or end of stream it is -1. -/
def can_receive (m_can_init : Bool) (rd : CanReadResult) :
    Int × List (Nat × Option Nat) :=
  if m_can_init = true then
    match rd with
    | .read_frame _ dlc data =>
        (ofPattern 8 (dlc % 2 ^ 8), (List.range dlc).map (fun i => (i, data[i]?)))
    | _ => (-1, [])
  else (-1, [])

/-- CanSocket::receive, bounded variant (bsw CanSocket.cpp lines 228 to
282).  can_received starts at -1; poll_activity(timeout_us) is consulted
first and its boolean outcome is the event argument; only when an event
occurred is the read performed (with the same three-way branch as the
blocking variant, except that a zero read return yields 0 here).  When no
event occurs before the timeout the function falls through and returns the
initial -1. -/
def can_receive_timeout (m_can_init : Bool) (event : Bool) (rd : CanReadResult) :
    Int × List (Nat × Option Nat) :=
  if m_can_init = true then
    if event = true then
      match rd with
      | .read_frame _ dlc data =>
          (ofPattern 8 (dlc % 2 ^ 8), (List.range dlc).map (fun i => (i, data[i]?)))
      | .read_eof => (0, [])
      | .read_err => (-1, [])
    else (-1, [])
  else (-1, [])

/-- CanSocket::receive, bounded variant of the older generation
(src/CanSocket.cpp lines 221 to 287): here can_received is assigned the
select result itself, so a select timeout (0) is returned as 0 and a
select error (-1) as -1; a positive select result leads to the read with
the same three-way branch. -/
def can_receive_timeout_old (m_init : Bool) (select_res : Int) (rd : CanReadResult) :
    Int × List (Nat × Option Nat) :=
  if m_init = true then
    if select_res > 0 then
      match rd with
      | .read_frame _ dlc data =>
          (ofPattern 8 (dlc % 2 ^ 8), (List.range dlc).map (fun i => (i, data[i]?)))
      | .read_eof => (0, [])
      | .read_err => (-1, [])
    else (select_res, [])
  else (-1, [])

/-- C2: the DLC clamp of CanSocket::send is real (frame.len is clamped to
the caller-array capacity, 8 for a standard frame), but the copy loop runs
to the unclamped len, so a request of len = 9 with an 8-byte standard
payload reads data[8], one element past the caller array (a none entry in
data_reads), in both generations of the code.  The claim that no more
bytes are copied than the caller array holds is therefore false on the
code, and the loop bound is a slip: it contradicts the clamp computed on
the line above it and the zero-fill meant to keep rubbish out of the
frame. -/
theorem C2_send_clamp :
    ((can_send true 291 (List.replicate 8 170) 9).map CanSendFrame.len = some 8)
    ∧ ((can_send true 291 (List.replicate 8 170) 9).map
        (fun f => f.data_reads.length) = some 9)
    ∧ ((can_send true 291 (List.replicate 8 170) 9).map
        (fun f => f.data_reads.contains none) = some true)
    ∧ ((can_send_old true 291 (List.replicate 8 170) 9).map CanSendFrame.len = some 8)
    ∧ ((can_send_old true 291 (List.replicate 8 170) 9).map
        (fun f => f.data_reads.contains none) = some true) := by
  decide

/-- C5: on the current (bsw) generation a timeout of the bounded receive
returns -1, not 0: when poll_activity reports no event the function falls
through with can_received still holding its initial value -1, conflating
timeout with error; the older select-based generation returns the select
result and hence 0 on timeout, as the claim and the header documentation
state. -/
theorem C5_timeout_return (rd : CanReadResult) :
    (can_receive_timeout true false rd).1 = -1
    ∧ (can_receive_timeout_old true 0 rd).1 = 0 := by
  constructor <;> rfl

/-- C8: the blocking receive has no min clamp: the copy loop writes
exactly frame.can_dlc entries, so a malformed frame with can_dlc = 9
produces 9 destination writes (not min(9, 8) = 8), including one at index
8, past the 8-byte caller array. -/
theorem C8_receive_min_counterexample :
    ((can_receive true (CanReadResult.read_frame 291 9 (List.replicate 8 170))).2.length = 9)
    ∧ (9 ≠ min 9 (List.replicate 8 (170 : Nat)).length)
    ∧ (((can_receive true (CanReadResult.read_frame 291 9
          (List.replicate 8 170))).2.map Prod.fst).contains 8 = true) := by
  decide

/-- C8 as amended: for every successful blocking receive the copy loop
writes exactly the decoded frame length bytes, at indices 0 to length - 1,
with no check against the destination capacity; when the length is at most
8 (the kernel contract for classic frames) this equals min(length,
capacity of the 8-byte caller array) and every write lands inside the
destination, and the call returns the decoded length; on a read error or
end of stream it returns -1. -/
theorem C8_receive_copy (cid dlc : Nat) (data : List Nat) (h : dlc ≤ 8) :
    ((can_receive true (CanReadResult.read_frame cid dlc data)).1 = dlc)
    ∧ ((can_receive true (CanReadResult.read_frame cid dlc data)).2.map Prod.fst
        = List.range dlc)
    ∧ ((can_receive true (CanReadResult.read_frame cid dlc data)).2.length = min dlc 8)
    ∧ (∀ i ∈ (can_receive true (CanReadResult.read_frame cid dlc data)).2.map Prod.fst,
        i < 8)
    ∧ ((can_receive true CanReadResult.read_err).1 = -1)
    ∧ ((can_receive true CanReadResult.read_eof).1 = -1) := by
  have hmap : (can_receive true (CanReadResult.read_frame cid dlc data)).2.map Prod.fst
      = List.range dlc := by
    show ((List.range dlc).map (fun i => (i, data[i]?))).map Prod.fst = List.range dlc
    rw [List.map_map]
    have hcomp : (Prod.fst ∘ fun i : Nat => (i, data[i]?)) = fun i => i := rfl
    rw [hcomp, List.map_id']
  refine ⟨?_, hmap, ?_, ?_, rfl, rfl⟩
  · show ofPattern 8 (dlc % 2 ^ 8) = dlc
    unfold ofPattern
    split <;> omega
  · show ((List.range dlc).map (fun i => (i, data[i]?))).length = min dlc 8
    simp; omega
  · intro i hi
    rw [hmap] at hi
    have := List.mem_range.mp hi
    omega

/-- Witness for C8 as amended at a full-length classic frame (dlc 8):
eight writes at indices 0 to 7, return value 8; error and end of stream
return -1. -/
theorem C8_receive_copy_witness :
    ((can_receive true (CanReadResult.read_frame 291 8 (List.replicate 8 170))).1 = 8)
    ∧ ((can_receive true (CanReadResult.read_frame 291 8 (List.replicate 8 170))).2.map
        Prod.fst = List.range 8)
    ∧ ((can_receive true (CanReadResult.read_frame 291 8 (List.replicate 8 170))).2.length
        = min 8 8)
    ∧ (∀ i ∈ (can_receive true (CanReadResult.read_frame 291 8
        (List.replicate 8 170))).2.map Prod.fst, i < 8)
    ∧ ((can_receive true CanReadResult.read_err).1 = -1)
    ∧ ((can_receive true CanReadResult.read_eof).1 = -1) :=
  C8_receive_copy 291 8 (List.replicate 8 170) (by decide)

/-! ## Socket.h and TcpServer.cpp: handles, close, assign, accept

The socket base class owns one OS handle (an int; -1 is the invalid
sentinel), a last-error slot and the initialization flag.  OS outcomes
(whether the close syscall succeeds, the descriptor an accept returns,
errno) are oracle arguments.  Operations that may invoke the close syscall
also return the list of descriptors on which close was invoked, in call
order, so that descriptor lifecycle claims can be stated. -/

structure SocketModel where
  m_last_error : Int
  m_socket : Int
  m_socket_init : Bool
  deriving DecidableEq

/-- The invalid handle alias (Socket.h lines 70 to 81, SocketState::INVALID
= -1). -/
def get_invalid_alias : Int := -1

/-- is_socket_initialized (Socket.h line 184). -/
def SocketModel.is_socket_initialized (s : SocketModel) : Bool := s.m_socket_init

/-- close_socket (Socket.h lines 130 to 165): when the socket is
initialized, shutdown and close are invoked on the handle; on close
success the initialization flag is cleared and true returned, on close
failure errno is recorded and false returned; when not initialized nothing
is closed and true is returned.  The third component lists the descriptors
close was invoked on. -/
def SocketModel.close_socket (s : SocketModel) (close_ok : Bool) (err : Int) :
    SocketModel × Bool × List Int :=
  if s.m_socket_init = true then
    if close_ok = true then
      ({ s with m_socket_init := false }, true, [s.m_socket])
    else
      ({ s with m_last_error := err }, false, [s.m_socket])
  else (s, true, [])

/-- assign (Socket.h lines 371 to 378): unconditionally stores the new
handle, marks the socket initialized and returns true; no close syscall is
invoked and the previous handle is never inspected, so the third component
is always empty. -/
def SocketModel.assign (s : SocketModel) (new_handle : Int) :
    SocketModel × Bool × List Int :=
  ({ s with m_socket := new_handle, m_socket_init := true }, true, [])

/-- The TCP server (TcpServer.h / TcpServer.cpp): a connect-accepting
socket m_connect and a data socket m_data. -/
structure TcpServerModel where
  m_connect : SocketModel
  m_data : SocketModel
  deriving DecidableEq

/-- TcpServer::accept (TcpServer.cpp lines 115 to 159).  accept_res is the
descriptor the accept syscall returned (negative on failure).  On success
the server first calls m_data.close_socket() and then m_data.assign with
the fresh descriptor, returning the assign result; on syscall failure
errno is recorded on m_connect and false returned.  The third component
concatenates, in call order, the descriptors close was invoked on. -/
def TcpServerModel.accept (srv : TcpServerModel) (accept_res : Int) (close_ok : Bool)
    (err : Int) : TcpServerModel × Bool × List Int :=
  if accept_res ≥ 0 then
    let c := srv.m_data.close_socket close_ok err
    let a := c.1.assign accept_res
    ({ srv with m_data := a.1 }, a.2.1, c.2.2 ++ a.2.2)
  else
    ({ srv with m_connect := { srv.m_connect with m_last_error := err } }, false, [])

/-- C9: for every server state whose data socket is initialized (as it is
after construction and after every earlier accept) and every successful
accept syscall, accept invokes close on exactly the previously assigned
data handle, and the state it then assigns the fresh descriptor into is
the already-closed one (the close precedes the assignment in the model
composition); afterwards the data socket holds the new descriptor, is
marked initialized, and the call returns true. -/
theorem C9_accept_closes_previous (srv : TcpServerModel) (accept_res : Int)
    (close_ok : Bool) (err : Int)
    (hres : 0 ≤ accept_res) (hinit : srv.m_data.m_socket_init = true) :
    ((srv.accept accept_res close_ok err).2.2 = [srv.m_data.m_socket])
    ∧ ((srv.accept accept_res close_ok err).1.m_data
        = ((srv.m_data.close_socket close_ok err).1.assign accept_res).1)
    ∧ ((srv.accept accept_res close_ok err).1.m_data.m_socket = accept_res)
    ∧ ((srv.accept accept_res close_ok err).1.m_data.m_socket_init = true)
    ∧ ((srv.accept accept_res close_ok err).2.1 = true) := by
  unfold TcpServerModel.accept
  rw [if_pos hres]
  unfold SocketModel.close_socket SocketModel.assign
  rw [hinit]
  cases close_ok <;> simp

/-- Witness for C9: two successive accepts on a concrete server.  The
first accept (descriptor 7) closes the construction-time data handle 5;
the second accept (descriptor 9) closes 7; each leaves the data socket
initialized with the fresh descriptor and returns true. -/
theorem C9_accept_closes_previous_witness :
    (((TcpServerModel.mk (SocketModel.mk 0 4 true) (SocketModel.mk 0 5 true)).accept
        7 true 0).2.2 = [5])
    ∧ (((TcpServerModel.mk (SocketModel.mk 0 4 true) (SocketModel.mk 0 5 true)).accept
        7 true 0).1.m_data.m_socket = 7)
    ∧ ((((TcpServerModel.mk (SocketModel.mk 0 4 true) (SocketModel.mk 0 5 true)).accept
        7 true 0).1.accept 9 true 0).2.2 = [7])
    ∧ ((((TcpServerModel.mk (SocketModel.mk 0 4 true) (SocketModel.mk 0 5 true)).accept
        7 true 0).1.accept 9 true 0).1.m_data.m_socket = 9)
    ∧ ((((TcpServerModel.mk (SocketModel.mk 0 4 true) (SocketModel.mk 0 5 true)).accept
        7 true 0).1.accept 9 true 0).1.m_data.m_socket_init = true)
    ∧ ((((TcpServerModel.mk (SocketModel.mk 0 4 true) (SocketModel.mk 0 5 true)).accept
        7 true 0).1.accept 9 true 0).2.1 = true) := by
  refine ⟨(C9_accept_closes_previous _ 7 true 0 (by decide) (by decide)).1,
    (C9_accept_closes_previous _ 7 true 0 (by decide) (by decide)).2.2.1, ?_, ?_, ?_, ?_⟩
  · exact (C9_accept_closes_previous _ 9 true 0 (by decide) (by decide)).1
  · exact (C9_accept_closes_previous _ 9 true 0 (by decide) (by decide)).2.2.1
  · exact (C9_accept_closes_previous _ 9 true 0 (by decide) (by decide)).2.2.2.1
  · exact (C9_accept_closes_previous _ 9 true 0 (by decide) (by decide)).2.2.2.2

/-- C10: Socket::assign(h) unconditionally overwrites the owned handle
with h, marks the socket initialized and returns true, for every handle
value h including the invalid sentinel -1; it never invokes close and
never inspects or rejects the previous handle, so after assign(-1) the
object reports itself initialized while holding the invalid sentinel. -/
theorem C10_assign_unconditional (s : SocketModel) (h : Int) :
    ((s.assign h).1.m_socket = h)
    ∧ ((s.assign h).1.m_socket_init = true)
    ∧ ((s.assign h).1.m_last_error = s.m_last_error)
    ∧ ((s.assign h).2.1 = true)
    ∧ ((s.assign h).2.2 = [])
    ∧ ((s.assign get_invalid_alias).1.is_socket_initialized = true
        ∧ (s.assign get_invalid_alias).1.m_socket = -1) :=
  ⟨rfl, rfl, rfl, rfl, rfl, rfl, rfl⟩

/-! ## OSControl.h: the periodic real-time task

The timespec fields are the C long values tv_sec and tv_nsec, modelled as
Int.  The loop body of rt_task (bsw OSControl.h lines 212 to 233) sleeps
until the absolute time t, runs the callback, then adds INTERVAL = 1000 *
Period nanoseconds to tv_nsec and calls normalize; normalize (lines 299 to
309) moves whole seconds from the nanosecond field to the second field
while tv_nsec >= 10^9.  The scheduler functions live in the OSControl
namespace, the name of the class that holds them in the source. -/

structure Timespec where
  tv_sec : Int
  tv_nsec : Int
  deriving DecidableEq

/-- One nanosecond count per second (NSEC_PER_SEC in the source). -/
def NSEC_PER_SEC : Int := 1000000000

/-- The instant a timespec represents, in nanoseconds. -/
def Timespec.instant (t : Timespec) : Int :=
  t.tv_sec * NSEC_PER_SEC + t.tv_nsec

namespace OSControl

/-- OSControl::normalize (bsw OSControl.h lines 299 to 309):
`while (t.tv_nsec >= NSEC_PER_SEC) { t.tv_nsec -= NSEC_PER_SEC; ++t.tv_sec; }`. -/
def normalize (t : Timespec) : Timespec :=
  if NSEC_PER_SEC ≤ t.tv_nsec then
    normalize ⟨t.tv_sec + 1, t.tv_nsec - NSEC_PER_SEC⟩
  else t
termination_by t.tv_nsec.toNat
decreasing_by
  unfold NSEC_PER_SEC at *
  omega

/-- The next wake time computed at the end of each rt_task loop iteration
(bsw OSControl.h lines 228 to 232): `t.tv_nsec += INTERVAL;
normalize(t);` with INTERVAL = 1000 * Period nanoseconds for a period
given in microseconds. -/
def rt_next_wake (t : Timespec) (Period : Int) : Timespec :=
  normalize ⟨t.tv_sec, t.tv_nsec + 1000 * Period⟩

/-- The pre-loop phase of rt_task aborts on a scheduler-priority or
memory-lock failure and otherwise enters the loop with a first absolute
wake time. -/
inductive RtSetupResult where
  | abort_prio
  | abort_mlock
  | enter_loop (first_wake : Timespec)
  deriving DecidableEq

/-- The pre-loop phase of rt_task (bsw OSControl.h lines 177 to 216; the
older src/system/OSControl.h lines 144 to 183 is identical in this
respect): set the SCHED_RR priority (abort on failure), lock memory
(abort on failure), pre-fault the stack, capture the monotonic clock into
t, and then advance t by one second (`++t.tv_sec`, commented
"start after one second") before entering the loop, so t is the deadline
of the first clock_nanosleep. -/
def rt_task_setup (prio_ok mlock_ok : Bool) (capture : Timespec) : RtSetupResult :=
  if prio_ok = false then RtSetupResult.abort_prio
  else if mlock_ok = false then RtSetupResult.abort_mlock
  else RtSetupResult.enter_loop ⟨capture.tv_sec + 1, capture.tv_nsec⟩

end OSControl

theorem normalize_instant (t : Timespec) :
    (OSControl.normalize t).instant = t.instant := by
  induction t using OSControl.normalize.induct with
  | case1 t ht ih =>
      rw [OSControl.normalize, if_pos ht]
      rw [ih]
      unfold Timespec.instant
      ring
  | case2 t ht =>
      rw [OSControl.normalize, if_neg ht]

theorem normalize_nsec_bounds (t : Timespec) (h : 0 ≤ t.tv_nsec) :
    0 ≤ (OSControl.normalize t).tv_nsec
    ∧ (OSControl.normalize t).tv_nsec < NSEC_PER_SEC := by
  induction t using OSControl.normalize.induct with
  | case1 t ht ih =>
      rw [OSControl.normalize, if_pos ht]
      exact ih (by simp only; unfold NSEC_PER_SEC at *; omega)
  | case2 t ht =>
      rw [OSControl.normalize, if_neg ht]
      omega

/-- C6: in every scheduler loop iteration the next wake time equals the
previous absolute wake time plus the fixed period (1000 * Period
nanoseconds for a period of Period microseconds), and the normalization
step moves whole seconds from the nanosecond field to the seconds field
without changing the represented instant, terminating (normalize is a
total function) with the nanosecond field in the valid sub-second range
0 ≤ tv_nsec < 10^9, given a non-negative starting nanosecond field and a
non-negative period. -/
theorem C6_next_wake (t : Timespec) (Period : Int)
    (hns : 0 ≤ t.tv_nsec) (hP : 0 ≤ Period) :
    ((OSControl.rt_next_wake t Period).instant = t.instant + 1000 * Period)
    ∧ (0 ≤ (OSControl.rt_next_wake t Period).tv_nsec)
    ∧ ((OSControl.rt_next_wake t Period).tv_nsec < NSEC_PER_SEC) := by
  unfold OSControl.rt_next_wake
  have hb := normalize_nsec_bounds ⟨t.tv_sec, t.tv_nsec + 1000 * Period⟩ (by simp; omega)
  refine ⟨?_, hb.1, hb.2⟩
  rw [normalize_instant]
  unfold Timespec.instant
  simp
  ring

/-- Witness for C6 at the concrete wake time 0 s, 999999999 ns and period
500000 us: the next wake time is one period of 5 * 10^8 ns later and has a
normalized nanosecond field. -/
theorem C6_next_wake_witness :
    ((OSControl.rt_next_wake (Timespec.mk 0 999999999) 500000).instant
      = (Timespec.mk 0 999999999).instant + 1000 * 500000)
    ∧ (0 ≤ (OSControl.rt_next_wake (Timespec.mk 0 999999999) 500000).tv_nsec)
    ∧ ((OSControl.rt_next_wake (Timespec.mk 0 999999999) 500000).tv_nsec < NSEC_PER_SEC) :=
  C6_next_wake (Timespec.mk 0 999999999) 500000 (by decide) (by decide)

/-- Counterexample to C7 as stated: with successful priority and memory
lock setup and the monotonic clock captured at 100 s, 5 ns, the first
absolute wake time used by the loop is 101 s, 5 ns, not the capture
instant: the code increments tv_sec by one after the capture. -/
theorem C7_first_wake_counterexample :
    OSControl.rt_task_setup true true (Timespec.mk 100 5)
      ≠ OSControl.RtSetupResult.enter_loop (Timespec.mk 100 5)
    ∧ OSControl.rt_task_setup true true (Timespec.mk 100 5)
      = OSControl.RtSetupResult.enter_loop (Timespec.mk 101 5) := by
  constructor
  · intro hcontra
    simp [OSControl.rt_task_setup] at hcontra
  · rfl

/-- C7 as amended: after setting the scheduling policy, locking memory and
pre-faulting the stack, the first absolute wake time used by the periodic
loop equals the monotonic clock time captured at startup plus one second
(the source advances tv_sec by one, commented "start after one second",
before the first clock_nanosleep). -/
theorem C7_first_wake (capture : Timespec) :
    OSControl.rt_task_setup true true capture
      = OSControl.RtSetupResult.enter_loop ⟨capture.tv_sec + 1, capture.tv_nsec⟩
    ∧ (∀ fw : Timespec,
        OSControl.rt_task_setup true true capture
          = OSControl.RtSetupResult.enter_loop fw →
        fw.instant = capture.instant + NSEC_PER_SEC) := by
  constructor
  · rfl
  · intro fw hfw
    have heq : OSControl.RtSetupResult.enter_loop
        (Timespec.mk (capture.tv_sec + 1) capture.tv_nsec)
        = OSControl.RtSetupResult.enter_loop fw := by
      rw [← hfw]
      rfl
    have hfweq : fw = Timespec.mk (capture.tv_sec + 1) capture.tv_nsec :=
      ((OSControl.RtSetupResult.enter_loop.injEq _ _).mp heq).symm
    rw [hfweq]
    unfold Timespec.instant NSEC_PER_SEC
    ring

/-- Witness for C5 at a concrete read outcome: with no event before the
timeout the bsw variant returns -1 whatever the read would have yielded,
while the older select-based variant returns 0. -/
theorem C5_timeout_return_witness :
    (can_receive_timeout true false CanReadResult.read_err).1 = -1
    ∧ (can_receive_timeout_old true 0 CanReadResult.read_err).1 = 0 :=
  C5_timeout_return CanReadResult.read_err

/-- Witness for C7 as amended at the concrete capture 100 s, 5 ns: the
loop is entered with first wake time 101 s, 5 ns, one second past the
capture instant. -/
theorem C7_first_wake_witness :
    OSControl.rt_task_setup true true (Timespec.mk 100 5)
      = OSControl.RtSetupResult.enter_loop (Timespec.mk 101 5)
    ∧ (Timespec.mk 101 5).instant = (Timespec.mk 100 5).instant + NSEC_PER_SEC :=
  ⟨by have h := (C7_first_wake (Timespec.mk 100 5)).1; simpa using h,
   (C7_first_wake (Timespec.mk 100 5)).2 (Timespec.mk 101 5) rfl⟩

/-- Witness for C10 at a concrete socket and the invalid sentinel: assign
(-1) on an uninitialized socket stores -1, reports the socket initialized,
keeps the error slot, closes nothing and returns true. -/
theorem C10_assign_unconditional_witness :
    (((SocketModel.mk 0 3 false).assign (-1)).1.m_socket = -1)
    ∧ (((SocketModel.mk 0 3 false).assign (-1)).1.m_socket_init = true)
    ∧ (((SocketModel.mk 0 3 false).assign (-1)).1.m_last_error
        = (SocketModel.mk 0 3 false).m_last_error)
    ∧ (((SocketModel.mk 0 3 false).assign (-1)).2.1 = true)
    ∧ (((SocketModel.mk 0 3 false).assign (-1)).2.2 = [])
    ∧ (((SocketModel.mk 0 3 false).assign get_invalid_alias).1.is_socket_initialized = true
        ∧ ((SocketModel.mk 0 3 false).assign get_invalid_alias).1.m_socket = -1) :=
  C10_assign_unconditional (SocketModel.mk 0 3 false) (-1)
